import Mathlib

/-!
Shallow embedding of `adv_temp_monitor.py`: the retrying temperature fetch
(`get_temperature`), the per-cycle hysteresis evaluation (`check_temperatures`),
the shutdown guard (`power_off_system`) and one step of the monitor loop
(`main_loop`), together with theorems about them.

Temperatures are modelled as exact rationals (the decimal strings the device
sends parse exactly), machine state as explicit arguments and results, and
I/O failures as explicit outcome values.
-/

namespace TempMonitor

/-- Configuration fields of `DEFAULT_CONFIG` that the monitor logic reads. -/
structure MonitorConfig where
  devices : List String
  maxTemp : ℚ
  hysteresisThreshold : ℤ
  retryCount : Nat
  retryDelay : ℚ
  checkInterval : ℚ

/-- The `DEFAULT_CONFIG` dictionary of the source. -/
def DEFAULT_CONFIG : MonitorConfig where
  devices := ["txpaa1", "txpaa2", "txpaa3"]
  maxTemp := 180
  hysteresisThreshold := 2
  retryCount := 3
  retryDelay := 1/2
  checkInterval := 300

/-! ## Temperature parsing: `re.search` with pattern digits 1-3, optional dot, digits star -/

/-- Numeric value of an ASCII digit character. -/
def digitVal (c : Char) : ℕ := c.toNat - 48

/-- Value of a digit string read as a base-10 natural number. -/
def digitsToNat (ds : List Char) : ℕ := ds.foldl (fun n c => 10 * n + digitVal c) 0

/-- Value of the greedy match of the pattern at a position starting with a
digit: one to three digits taken greedily, then an optional dot, then any
further digits, converted by Python `float`. When the dot is present the
match is `d3.frac`, with value `digits(d3 frac) / 10 ^ |frac|`; otherwise the
digits-star keeps consuming digits directly and the value is the integer
`digits(d3 more)`. -/
def matchValueAt (cs : List Char) : ℚ :=
  let d3 := (cs.takeWhile Char.isDigit).take 3
  let rest := cs.drop d3.length
  if rest.head? = some '.' then
    let frac := (rest.drop 1).takeWhile Char.isDigit
    mkRat (digitsToNat (d3 ++ frac)) (10 ^ frac.length)
  else
    mkRat (digitsToNat (d3 ++ rest.takeWhile Char.isDigit)) 1

/-- Leftmost search: the pattern matches at a position iff that position holds a
digit, so `re.search` finds the first digit and matches greedily there. -/
def findFirstNumber : List Char → Option ℚ
  | [] => none
  | c :: rest => if c.isDigit then some (matchValueAt (c :: rest)) else findFirstNumber rest

/-- The temperature-parsing step of `get_temperature` (lines 106-111):
`re.search` for the first number substring in the response, as a `float`. -/
def parseTemp (s : String) : Option ℚ := findFirstNumber s.data

/-! ## Retrying temperature fetch: `get_temperature` -/

/-- Causes of a failed transport attempt; `serial.Serial` raises
`SerialException` when the device path does not exist. -/
inductive TransportCause
  | openFailureNoDevice
  | timeout
  | decodeError
  | otherOSError
deriving DecidableEq, Repr

/-- What one attempt of the retry loop observes: a caught transport exception,
or a decoded response line. -/
inductive AttemptOutcome
  | transportError (c : TransportCause)
  | response (s : String)
deriving DecidableEq, Repr

/-- What one iteration of the retry loop produces: the caught-exception path
and the no-number-in-response path both yield nothing. -/
def attemptParse : AttemptOutcome → Option ℚ
  | .transportError _ => none
  | .response s => parseTemp s

/-- Observable trace of one `get_temperature` call: returned value, number of
transport attempts actually made, number of `retry_delay` sleeps performed. -/
structure FetchTrace where
  result : Option ℚ
  attemptsMade : ℕ
  sleeps : ℕ
deriving DecidableEq, Repr

/-- `get_temperature` (lines 85-123), driven by the list of outcomes the
successive attempts would observe (the list has length `retry_count`): return
on the first attempt that parses a number, sleep `retry_delay` after a failed
attempt only when it is not the last, return `None` when all attempts fail. -/
def get_temperature : List AttemptOutcome → FetchTrace
  | [] => ⟨none, 0, 0⟩
  | a :: rest =>
    match attemptParse a with
    | some v => ⟨some v, 1, 0⟩
    | none =>
      if rest.isEmpty then ⟨none, 1, 0⟩
      else
        let t := get_temperature rest
        ⟨t.result, t.attemptsMade + 1, t.sleeps + 1⟩

/-! ## Hysteresis evaluation: the processing loop of `check_temperatures` -/

/-- The `over_temp_counts` dictionary: a total map with default 0, as built by
`over_temp_counts.get(device, 0)` and the startup initialisation to 0. -/
abbrev Counts := String → ℤ

/-- Pointwise dictionary update `over_temp_counts[device] = n`. -/
def updateCount (c : Counts) (d : String) (n : ℤ) : Counts :=
  fun x => if x = d then n else c x

/-- One iteration of the result-processing loop of `check_temperatures`
(lines 151-175): a failed read is skipped (`continue`), an over-limit reading
increments the device's counter and raises `emergency` when the new counter
reaches `hysteresis_threshold`, any other reading resets the counter to 0. -/
def process_result (cfg : MonitorConfig) (st : Counts × Bool) :
    String × Option ℚ → Counts × Bool
  | (_, none) => st
  | (device, some temp) =>
    if cfg.maxTemp < temp then
      let n := st.1 device + 1
      (updateCount st.1 device n, st.2 || decide (cfg.hysteresisThreshold ≤ n))
    else
      (updateCount st.1 device 0, st.2)

/-- The result-processing phase of `check_temperatures` (lines 149-177):
`emergency` starts out `False` each cycle and the results are folded through
`process_result`; returns the updated counters and the cycle verdict. -/
def check_temperatures (cfg : MonitorConfig) (counts : Counts)
    (results : List (String × Option ℚ)) : Counts × Bool :=
  results.foldl (process_result cfg) (counts, false)

/-- Iterated cycles: the counters carried from one call of
`check_temperatures` to the next. -/
def runCycles (cfg : MonitorConfig) (counts : Counts)
    (batches : List (List (String × Option ℚ))) : Counts :=
  batches.foldl (fun c b => (check_temperatures cfg c b).1) counts

/-! ## Concurrent fan-out/fan-in of `check_temperatures` (lines 133-147) -/

/-- What one device's fetch does from the cycle's point of view: return an
outcome value, or escape with an unexpected exception. -/
inductive FetchOutcome
  | returns (v : Option ℚ)
  | raises (msg : String)
deriving DecidableEq, Repr

/-- The per-device boundary of the fan-in loop: `future.result()` either
yields the fetch's value or raises, and the `except` clause converts a raise
into `(device, None)`. -/
def settle : FetchOutcome → Option ℚ
  | .returns v => v
  | .raises _ => none

/-- The fan-in loop of `check_temperatures`: futures complete in an arbitrary
order (a permutation of the configured devices) and each appends one pair to
`results`. -/
def collect_results (order : List String) (behavior : String → FetchOutcome) :
    List (String × Option ℚ) :=
  order.map fun d => (d, settle (behavior d))

/-! ## Shutdown guard: `power_off_system` (lines 179-203) -/

/-- Result of the external power-off command (`subprocess.run`): captured but
never consulted for the guard's state. -/
inductive CmdResult
  | success (out : String)
  | nonzeroExit (code : ℤ) (err : String)
  | timedOut
  | otherError (msg : String)
deriving DecidableEq, Repr

/-- `timedelta(minutes=5)` in seconds. -/
def cooldownSeconds : ℤ := 300

/-- `power_off_system`: refuse when a previous attempt is recorded less than
five minutes ago; otherwise record `now` as the last attempt (before the
command runs, so irrespective of `r`) and invoke the command. Returns the new
`last_shutdown_attempt` and whether the command was invoked. Times are
integer seconds. -/
def power_off_system (last : Option ℤ) (now : ℤ) (_r : CmdResult) :
    Option ℤ × Bool :=
  match last with
  | some t => if now - t < cooldownSeconds then (some t, false) else (some now, true)
  | none => (some now, true)

/-- The times at which the guard actually invokes the power-off command, over
a sequence of emergency calls given as (wall-clock time, command result). -/
def invokedTimes (last : Option ℤ) : List (ℤ × CmdResult) → List ℤ
  | [] => []
  | (t, r) :: rest =>
    let p := power_off_system last t r
    if p.2 then t :: invokedTimes p.1 rest else invokedTimes p.1 rest

/-! ## One cycle of `main_loop` (lines 211-223) -/

/-- The cross-cycle mutable state: `over_temp_counts` and
`last_shutdown_attempt`. -/
structure LoopState where
  counts : Counts
  lastShutdown : Option ℤ

/-- `check_temperatures` including the `open(temp_file, "a")` at line 150:
when the open fails the exception escapes before any counter is touched. -/
def check_temperatures_gated (cfg : MonitorConfig) (openOk : Bool) (counts : Counts)
    (results : List (String × Option ℚ)) : Except Unit (Counts × Bool) :=
  if openOk then .ok (check_temperatures cfg counts results) else .error ()

/-- One iteration of `main_loop`: run `check_temperatures`, call
`power_off_system` iff it returns `True`, and catch any exception at the loop
boundary leaving the state as it was. Returns the new state and whether the
power-off command was invoked this cycle. -/
def main_loop (cfg : MonitorConfig) (st : LoopState) (openOk : Bool)
    (results : List (String × Option ℚ)) (now : ℤ) (r : CmdResult) :
    LoopState × Bool :=
  match check_temperatures_gated cfg openOk st.counts results with
  | .error _ => (st, false)
  | .ok res =>
    if res.2 then
      let p := power_off_system st.lastShutdown now r
      (⟨res.1, p.1⟩, p.2)
    else
      (⟨res.1, st.lastShutdown⟩, false)

/-! ## Helper lemmas on the fetch -/

lemma get_temperature_found (a : AttemptOutcome) (rest : List AttemptOutcome)
    (v : ℚ) (h : attemptParse a = some v) :
    get_temperature (a :: rest) = ⟨some v, 1, 0⟩ := by
  simp only [get_temperature, h]

lemma get_temperature_single_fail (a : AttemptOutcome) (h : attemptParse a = none) :
    get_temperature [a] = ⟨none, 1, 0⟩ := by
  simp only [get_temperature, h, List.isEmpty_nil, if_true]

lemma get_temperature_cons_fail (a b : AttemptOutcome) (rest2 : List AttemptOutcome)
    (h : attemptParse a = none) :
    get_temperature (a :: b :: rest2) =
      ⟨(get_temperature (b :: rest2)).result,
       (get_temperature (b :: rest2)).attemptsMade + 1,
       (get_temperature (b :: rest2)).sleeps + 1⟩ := by
  simp only [get_temperature, h, List.isEmpty_cons, if_false, Bool.false_eq_true]

lemma get_temperature_attempts_pos (a : AttemptOutcome) (rest : List AttemptOutcome) :
    1 ≤ (get_temperature (a :: rest)).attemptsMade := by
  cases h : attemptParse a with
  | some v => simp [get_temperature_found a rest v h]
  | none =>
    cases rest with
    | nil => simp [get_temperature_single_fail a h]
    | cons b rest2 => simp [get_temperature_cons_fail a b rest2 h]

/-- C4: the retrying fetch calls the transport at most `retry_count` times
(the attempt list has length `retry_count`, default 3), sleeps `retry_delay`
(default 0.5 s) between consecutive attempts but never after the last one, and
always returns exactly one outcome value: the parsed temperature of the first
attempt that yields a number, else the read-failure marker `none`; every
transport, decode or parse failure is an `AttemptOutcome` value consumed by
the loop, never a propagated exception. -/
theorem get_temperature_retry_contract (attempts : List AttemptOutcome) :
    (get_temperature attempts).result = attempts.findSome? attemptParse ∧
    (get_temperature attempts).attemptsMade ≤ attempts.length ∧
    (get_temperature attempts).sleeps = (get_temperature attempts).attemptsMade - 1 ∧
    DEFAULT_CONFIG.retryCount = 3 ∧ DEFAULT_CONFIG.retryDelay = 1/2 := by
  induction attempts with
  | nil => exact ⟨rfl, le_refl _, rfl, rfl, rfl⟩
  | cons a rest ih =>
    cases h : attemptParse a with
    | some v =>
      rw [get_temperature_found a rest v h]
      refine ⟨?_, ?_, ?_, rfl, rfl⟩ <;> simp [List.findSome?_cons, h]
    | none =>
      cases rest with
      | nil =>
        rw [get_temperature_single_fail a h]
        refine ⟨?_, ?_, ?_, rfl, rfl⟩ <;> simp [List.findSome?_cons, h]
      | cons b rest2 =>
        rw [get_temperature_cons_fail a b rest2 h]
        have hpos := get_temperature_attempts_pos b rest2
        refine ⟨?_, ?_, ?_, rfl, rfl⟩
        · simp [List.findSome?_cons, h, ih.1]
        · simpa using Nat.add_le_add_right ih.2.1 1
        · have hs := ih.2.2.1
          simp only []
          omega

/-- C6 counterexample: a device path that does not exist makes every attempt
fail with the open failure, yet the fetch performs all `retry_count = 3`
attempts and 2 inter-attempt sleeps, not exactly one attempt and no sleep. -/
theorem config_error_retried_counterexample :
    get_temperature (List.replicate DEFAULT_CONFIG.retryCount
        (AttemptOutcome.transportError .openFailureNoDevice)) =
      ⟨none, 3, 2⟩ ∧ (3 : ℕ) ≠ 1 :=
  ⟨rfl, by decide⟩

/-- C6 amended: the fetch does not classify a nonexistent device path as a
configuration error — the open failure is caught like any transient transport
failure, so all `n` configured attempts are made with `n - 1` sleeps between
them, exactly as for any other transport failure cause. -/
theorem open_failure_retried_like_transient :
    (∀ n : ℕ, get_temperature (List.replicate n
        (AttemptOutcome.transportError .openFailureNoDevice)) = ⟨none, n, n - 1⟩) ∧
    (∀ (c : TransportCause) (rest : List AttemptOutcome),
      get_temperature (AttemptOutcome.transportError .openFailureNoDevice :: rest) =
        get_temperature (AttemptOutcome.transportError c :: rest)) := by
  constructor
  · intro n
    induction n with
    | zero => rfl
    | succ m ih =>
      rw [List.replicate_succ]
      cases m with
      | zero => rfl
      | succ k =>
        have h0 : attemptParse (AttemptOutcome.transportError .openFailureNoDevice) = none := rfl
        rw [List.replicate_succ] at ih ⊢
        rw [get_temperature_cons_fail _ _ _ h0, ih]
        simp only [FetchTrace.mk.injEq, true_and]
        omega
  · intro c rest
    cases rest <;> rfl

/-! ## Helper lemmas on parsing -/

lemma matchValueAt_nonneg (cs : List Char) : 0 ≤ matchValueAt cs := by
  simp only [matchValueAt]
  split
  · exact Rat.mkRat_nonneg (by positivity) _
  · exact Rat.mkRat_nonneg (by positivity) _

lemma findFirstNumber_nonneg : ∀ (l : List Char) (v : ℚ),
    findFirstNumber l = some v → 0 ≤ v := by
  intro l
  induction l with
  | nil => intro v h; cases h
  | cons c rest ih =>
    intro v h
    by_cases hc : c.isDigit
    · simp only [findFirstNumber, hc, if_true] at h
      cases h
      exact matchValueAt_nonneg _
    · simp only [findFirstNumber, hc, if_false] at h
      exact ih v h

lemma findFirstNumber_none_iff : ∀ (l : List Char),
    findFirstNumber l = none ↔ ∀ c ∈ l, c.isDigit = false := by
  intro l
  induction l with
  | nil => simp [findFirstNumber]
  | cons c rest ih =>
    by_cases hc : c.isDigit
    · simp [findFirstNumber, hc]
    · have hc2 : c.isDigit = false := by simpa using hc
      simp [findFirstNumber, hc2, ih, List.forall_mem_cons]

/-- C5 counterexample: the extraction pattern accepts no sign, so the raw
response `-12.5` parses to `12.5`, not to `-12.5` as the claim states. -/
theorem parse_sign_counterexample :
    parseTemp "-12.5" = some (12.5 : ℚ) ∧ (12.5 : ℚ) ≠ (-12.5 : ℚ) :=
  ⟨by with_unfolding_all rfl, by norm_num⟩

/-- C5 amended: the fetch extracts the leftmost substring matching the
unsigned pattern (one to three digits, optional dot, further digits): the
search skips any digit-free prefix so the first number anywhere in the text
wins (`Temp: 73.5C` yields `73.5`), a leading minus sign is not part of the
match (`-12.5` yields `12.5`), a digit-free response parses to nothing, and
such an attempt is retried exactly like a transport failure. -/
theorem parse_first_number_amended :
    (∀ (pre s : List Char), (∀ c ∈ pre, c.isDigit = false) →
      findFirstNumber (pre ++ s) = findFirstNumber s) ∧
    (∀ s : String, parseTemp s = none ↔ ∀ c ∈ s.data, c.isDigit = false) ∧
    parseTemp "Temp: 73.5C" = some (73.5 : ℚ) ∧
    parseTemp "-12.5" = some (12.5 : ℚ) ∧
    (∀ (s : String) (rest : List AttemptOutcome) (c : TransportCause),
      parseTemp s = none →
      get_temperature (AttemptOutcome.response s :: rest) =
        get_temperature (AttemptOutcome.transportError c :: rest)) := by
  refine ⟨?_, ?_, by with_unfolding_all rfl, by with_unfolding_all rfl, ?_⟩
  · intro pre s hpre
    induction pre with
    | nil => rfl
    | cons c pre ih =>
      have hc : c.isDigit = false := hpre c (List.mem_cons_self c pre)
      have hrest : ∀ x ∈ pre, x.isDigit = false :=
        fun x hx => hpre x (List.mem_cons_of_mem c hx)
      simp [findFirstNumber, hc, ih hrest]
  · intro s
    exact findFirstNumber_none_iff s.data
  · intro s rest c hs
    have h1 : attemptParse (AttemptOutcome.response s) = none := hs
    have h2 : attemptParse (AttemptOutcome.transportError c) = none := rfl
    cases rest with
    | nil => rw [get_temperature_single_fail _ h1, get_temperature_single_fail _ h2]
    | cons b rest2 =>
      rw [get_temperature_cons_fail _ _ _ h1, get_temperature_cons_fail _ _ _ h2]

/-- Closed instance of the amended C5 theorem at concrete inputs. -/
theorem parse_first_number_amended_witness :
    findFirstNumber (("xy: ").data ++ ("73.5").data) = findFirstNumber ("73.5").data ∧
    get_temperature [AttemptOutcome.response "no temp", AttemptOutcome.response "73.5"] =
      get_temperature [AttemptOutcome.transportError .timeout, AttemptOutcome.response "73.5"] :=
  ⟨parse_first_number_amended.1 _ _ (by decide),
   parse_first_number_amended.2.2.2.2 "no temp" _ TransportCause.timeout (by with_unfolding_all rfl)⟩

/-- C9 counterexample: the trailing digits-star of the pattern consumes digits
beyond the first three even without a decimal point, so the response `1850`
parses to `1850`, not to `185` as the claim states. -/
theorem parse_three_digit_counterexample :
    parseTemp "1850" = some (1850 : ℚ) ∧ (1850 : ℚ) ≠ (185 : ℚ) :=
  ⟨rfl, by norm_num⟩

/-- C9 amended: every value the fetch returns is nonnegative, because the
pattern accepts no sign (`-12.5` yields `12.5`); but the integer part is not
limited to three digits, because the digits-star suffix keeps consuming
digits even without a decimal point (`1850` yields `1850`). -/
theorem parse_nonneg_amended :
    (∀ (s : String) (v : ℚ), parseTemp s = some v → 0 ≤ v) ∧
    parseTemp "-12.5" = some (12.5 : ℚ) ∧
    parseTemp "1850" = some (1850 : ℚ) := by
  refine ⟨?_, by with_unfolding_all rfl, rfl⟩
  intro s v h
  exact findFirstNumber_nonneg s.data v h

/-- Closed instance of the amended C9 theorem at a concrete response. -/
theorem parse_nonneg_amended_witness :
    parseTemp "73.5" = some (73.5 : ℚ) ∧ (0 : ℚ) ≤ (73.5 : ℚ) :=
  ⟨by with_unfolding_all rfl,
   parse_nonneg_amended.1 "73.5" (73.5 : ℚ) (by with_unfolding_all rfl)⟩

/-! ## Hysteresis: per-device counter lemmas -/

/-- The per-device counter transition of one processed result: unchanged on a
failed read, incremented on an over-limit reading, reset otherwise. -/
def overStep (m : ℚ) (n : ℤ) : Option ℚ → ℤ
  | none => n
  | some v => if m < v then n + 1 else 0

/-- The outcomes a cycle's result list holds for one device, in order. -/
def deviceOutcomes (d : String) (batch : List (String × Option ℚ)) : List (Option ℚ) :=
  (batch.filter fun p => p.1 = d).map Prod.snd

/-- The spec's notion: length of the current trailing run of readings strictly
above the limit `m` (the longest all-over suffix of the reading sequence). -/
def trailingRun (m : ℚ) (vs : List ℚ) : ℕ :=
  (vs.reverse.takeWhile fun v => decide (m < v)).length

lemma process_result_counts (cfg : MonitorConfig) (st : Counts × Bool)
    (p : String × Option ℚ) (d : String) :
    (process_result cfg st p).1 d =
      if p.1 = d then overStep cfg.maxTemp (st.1 d) p.2 else st.1 d := by
  obtain ⟨d0, o⟩ := p
  cases o with
  | none => simp [process_result, overStep]
  | some v =>
    by_cases hd : d0 = d
    · subst hd
      by_cases hv : cfg.maxTemp < v <;>
        simp [process_result, overStep, updateCount, hv]
    · have hd2 : ¬ d = d0 := fun h => hd h.symm
      by_cases hv : cfg.maxTemp < v <;>
        simp [process_result, overStep, updateCount, hv, hd, hd2]

lemma foldl_process_counts (cfg : MonitorConfig) (d : String) :
    ∀ (batch : List (String × Option ℚ)) (st : Counts × Bool),
      (batch.foldl (process_result cfg) st).1 d =
        (deviceOutcomes d batch).foldl (overStep cfg.maxTemp) (st.1 d) := by
  intro batch
  induction batch with
  | nil => intro st; rfl
  | cons p rest ih =>
    intro st
    rw [List.foldl_cons, ih]
    by_cases hp : p.1 = d
    · simp [deviceOutcomes, List.filter_cons, hp, process_result_counts cfg st p d]
    · simp [deviceOutcomes, List.filter_cons, hp, process_result_counts cfg st p d]

lemma check_temperatures_counts (cfg : MonitorConfig) (counts : Counts)
    (batch : List (String × Option ℚ)) (d : String) :
    (check_temperatures cfg counts batch).1 d =
      (deviceOutcomes d batch).foldl (overStep cfg.maxTemp) (counts d) :=
  foldl_process_counts cfg d batch (counts, false)

lemma runCycles_cons (cfg : MonitorConfig) (c : Counts)
    (b : List (String × Option ℚ)) (bs : List (List (String × Option ℚ))) :
    runCycles cfg c (b :: bs) = runCycles cfg (check_temperatures cfg c b).1 bs := rfl

lemma runCycles_counts (cfg : MonitorConfig) (d : String) :
    ∀ (batches : List (List (String × Option ℚ))) (c : Counts),
      runCycles cfg c batches d =
        ((batches.map (deviceOutcomes d)).flatten).foldl (overStep cfg.maxTemp) (c d) := by
  intro batches
  induction batches with
  | nil => intro c; rfl
  | cons b bs ih =>
    intro c
    rw [runCycles_cons, ih, check_temperatures_counts]
    simp [List.foldl_append]

lemma foldl_overStep_eq_trailingRun (m : ℚ) :
    ∀ outcomes : List (Option ℚ),
      outcomes.foldl (overStep m) 0 =
        ((trailingRun m (outcomes.filterMap id) : ℕ) : ℤ) := by
  intro outcomes
  induction outcomes using List.reverseRecOn with
  | nil => rfl
  | append_singleton xs x ih =>
    rw [List.foldl_append, List.filterMap_append]
    cases x with
    | none => simpa using ih
    | some v =>
      rw [show List.filterMap id [some v] = [v] from rfl,
        show List.foldl (overStep m) (List.foldl (overStep m) 0 xs) [some v] =
          overStep m (List.foldl (overStep m) 0 xs) (some v) from rfl]
      by_cases hv : m < v
      · have hrun : trailingRun m (xs.filterMap id ++ [v]) =
            trailingRun m (xs.filterMap id) + 1 := by
          simp [trailingRun, List.reverse_append, List.takeWhile_cons, hv]
        rw [hrun, overStep, if_pos hv, ih]
        push_cast
        ring
      · have hrun : trailingRun m (xs.filterMap id ++ [v]) = 0 := by
          simp [trailingRun, List.reverse_append, List.takeWhile_cons, hv]
        rw [hrun, overStep, if_neg hv]
        simp

/-- C1: for every device `d` and every sequence of per-cycle result batches
fed to the hysteresis evaluator, the overheat counter of `d` after all cycles
(starting from the zero counters of startup) equals the length of the current
trailing run of Temperature readings strictly above `max_temp` among the
outcomes recorded for `d`: an over-limit reading extends the run, an
at-or-below reading resets it, and a `ReadFailure` (`none`) is skipped by the
`filterMap` and leaves it unchanged; in particular the counter is never
negative. -/
theorem overheat_counter_is_trailing_run (cfg : MonitorConfig) (d : String)
    (batches : List (List (String × Option ℚ))) :
    runCycles cfg (fun _ => 0) batches d =
      ((trailingRun cfg.maxTemp
        (((batches.map (deviceOutcomes d)).flatten).filterMap id) : ℕ) : ℤ) ∧
    0 ≤ runCycles cfg (fun _ => 0) batches d := by
  rw [runCycles_counts cfg d batches (fun _ => 0), foldl_overStep_eq_trailingRun]
  exact ⟨rfl, Int.natCast_nonneg _⟩

/-! ## Cycle verdict: when `check_temperatures` declares emergency -/

lemma foldl_process_counts_not_mem (cfg : MonitorConfig)
    (results : List (String × Option ℚ)) (st : Counts × Bool) (d : String)
    (h : d ∉ results.map Prod.fst) :
    (results.foldl (process_result cfg) st).1 d = st.1 d := by
  have h2 : (results.filter fun p => p.1 = d) = [] := by
    rw [List.filter_eq_nil_iff]
    intro p hp
    simp only [decide_eq_true_eq]
    intro hpd
    exact h (by rw [← hpd]; exact List.mem_map_of_mem Prod.fst hp)
  have h3 : deviceOutcomes d results = [] := by rw [deviceOutcomes, h2]; rfl
  rw [foldl_process_counts, h3]
  rfl

/-- Characterisation of the emergency flag computed by the processing loop:
with one result per device, the flag is raised iff some over-limit Temperature
result pushed its device's post-update counter to the threshold. -/
lemma foldl_process_emergency (cfg : MonitorConfig) :
    ∀ (results : List (String × Option ℚ)) (st : Counts × Bool),
      (results.map Prod.fst).Nodup →
      ((results.foldl (process_result cfg) st).2 = true ↔
        st.2 = true ∨ ∃ d v, (d, some v) ∈ results ∧ cfg.maxTemp < v ∧
          cfg.hysteresisThreshold ≤ (results.foldl (process_result cfg) st).1 d) := by
  intro results
  induction results with
  | nil => intro st _; simp
  | cons p rest ih =>
    intro st hnd
    obtain ⟨d0, o⟩ := p
    rw [List.map_cons, List.nodup_cons] at hnd
    obtain ⟨hd0, hndr⟩ := hnd
    rw [List.foldl_cons, ih _ hndr]
    cases o with
    | none =>
      have hstep : process_result cfg st (d0, none) = st := rfl
      rw [hstep]
      constructor
      · rintro (h | ⟨d, w, hm, hw, hle⟩)
        · exact Or.inl h
        · exact Or.inr ⟨d, w, List.mem_cons_of_mem _ hm, hw, hle⟩
      · rintro (h | ⟨d, w, hm, hw, hle⟩)
        · exact Or.inl h
        · rcases List.mem_cons.mp hm with he | hm2
          · simp at he
          · exact Or.inr ⟨d, w, hm2, hw, hle⟩
    | some v =>
      by_cases hv : cfg.maxTemp < v
      · have hstep : process_result cfg st (d0, some v) =
            (updateCount st.1 d0 (st.1 d0 + 1),
             st.2 || decide (cfg.hysteresisThreshold ≤ st.1 d0 + 1)) := by
          simp [process_result, hv]
        rw [hstep]
        have hF0 : (rest.foldl (process_result cfg)
            (updateCount st.1 d0 (st.1 d0 + 1),
             st.2 || decide (cfg.hysteresisThreshold ≤ st.1 d0 + 1))).1 d0 =
            st.1 d0 + 1 := by
          rw [foldl_process_counts_not_mem cfg rest _ d0 hd0]
          simp [updateCount]
        constructor
        · rintro (h | ⟨d, w, hm, hw, hle⟩)
          · rw [Bool.or_eq_true] at h
            rcases h with h2 | h2
            · exact Or.inl h2
            · refine Or.inr ⟨d0, v, List.mem_cons_self _ _, hv, ?_⟩
              rw [hF0]
              exact of_decide_eq_true h2
          · exact Or.inr ⟨d, w, List.mem_cons_of_mem _ hm, hw, hle⟩
        · rintro (h | ⟨d, w, hm, hw, hle⟩)
          · exact Or.inl (by rw [h, Bool.true_or])
          · rcases List.mem_cons.mp hm with he | hm2
            · injection he with h1 h2
              subst h1
              refine Or.inl ?_
              rw [Bool.or_eq_true]
              refine Or.inr (decide_eq_true ?_)
              rw [hF0] at hle
              exact hle
            · exact Or.inr ⟨d, w, hm2, hw, hle⟩
      · have hstep : process_result cfg st (d0, some v) = (updateCount st.1 d0 0, st.2) := by
          simp [process_result, hv]
        rw [hstep]
        constructor
        · rintro (h | ⟨d, w, hm, hw, hle⟩)
          · exact Or.inl h
          · exact Or.inr ⟨d, w, List.mem_cons_of_mem _ hm, hw, hle⟩
        · rintro (h | ⟨d, w, hm, hw, hle⟩)
          · exact Or.inl h
          · rcases List.mem_cons.mp hm with he | hm2
            · injection he with h1 h2
              injection h2 with h3
              exact absurd (h3 ▸ hw) hv
            · exact Or.inr ⟨d, w, hm2, hw, hle⟩

/-- The counters carried into the C2 counterexample's third cycle: two
over-limit cycles for device txpaa1 from the startup state. -/
def c2Counts : Counts :=
  runCycles DEFAULT_CONFIG (fun _ => 0) [[("txpaa1", some 190)], [("txpaa1", some 190)]]

/-- The C2 counterexample's third cycle: txpaa1 suffers a read failure while
its counter already sits at the threshold. -/
def c2Third : Counts × Bool :=
  check_temperatures DEFAULT_CONFIG c2Counts [("txpaa1", none)]

/-- C2 counterexample: after two over-limit cycles device txpaa1's counter is
at the threshold (2), and a third cycle consisting of a `ReadFailure` leaves
it there — yet the cycle verdict is `False`, because `emergency` is set only
inside the over-limit branch; so the verdict is not equivalent to some
post-update counter being at or above the threshold. -/
theorem emergency_iff_counterexample :
    c2Third.2 = false ∧ DEFAULT_CONFIG.hysteresisThreshold ≤ c2Third.1 "txpaa1" := by
  constructor
  · rfl
  · decide

/-- C2 amended: with one outcome per device in a cycle, the cycle verdict is
`True` iff some device received an over-limit Temperature reading in that
cycle whose post-update counter reached `hysteresis_threshold`; a device whose
counter is already at the threshold but which receives a `ReadFailure` (or an
at-or-below reading) this cycle does not raise the verdict. -/
theorem emergency_iff_over_limit_reading (cfg : MonitorConfig) (counts : Counts)
    (results : List (String × Option ℚ))
    (hnd : (results.map Prod.fst).Nodup) :
    (check_temperatures cfg counts results).2 = true ↔
      ∃ d v, (d, some v) ∈ results ∧ cfg.maxTemp < v ∧
        cfg.hysteresisThreshold ≤ (check_temperatures cfg counts results).1 d := by
  have h := foldl_process_emergency cfg results (counts, false) hnd
  simpa using h

/-- Closed instance of the amended C2 theorem: an over-limit reading that
reaches the threshold makes the verdict true. -/
theorem emergency_iff_over_limit_reading_witness :
    (check_temperatures DEFAULT_CONFIG (fun _ => 1) [("txpaa1", some 190)]).2 = true :=
  (emergency_iff_over_limit_reading DEFAULT_CONFIG (fun _ => 1) [("txpaa1", some 190)]
      (by decide)).mpr
    ⟨"txpaa1", 190, by decide, by norm_num [DEFAULT_CONFIG], by decide⟩

/-! ## No shutdown without an over-limit reading, and the temp-file gate -/

lemma foldl_process_no_over_keeps_emergency (cfg : MonitorConfig) :
    ∀ (results : List (String × Option ℚ)) (st : Counts × Bool),
      (∀ d v, (d, some v) ∈ results → v ≤ cfg.maxTemp) →
      (results.foldl (process_result cfg) st).2 = st.2 := by
  intro results
  induction results with
  | nil => intro st _; rfl
  | cons p rest ih =>
    intro st h
    obtain ⟨d0, o⟩ := p
    rw [List.foldl_cons]
    have hrest : ∀ d v, (d, some v) ∈ rest → v ≤ cfg.maxTemp :=
      fun d v hm => h d v (List.mem_cons_of_mem _ hm)
    rw [ih _ hrest]
    cases o with
    | none => rfl
    | some v =>
      have hv : v ≤ cfg.maxTemp := h d0 v (List.mem_cons_self _ _)
      have hv2 : ¬ cfg.maxTemp < v := not_lt.mpr hv
      simp [process_result, hv2]

/-- C8: the power-off command is never invoked in a cycle in which no device
produced a Temperature reading strictly above `max_temp` — a cycle of only
read failures and at-or-below readings never triggers shutdown, whatever the
counters held before, because `emergency` is set only inside the over-limit
branch of the per-device update. -/
theorem no_shutdown_without_over_limit (cfg : MonitorConfig) (st : LoopState)
    (openOk : Bool) (results : List (String × Option ℚ)) (now : ℤ) (r : CmdResult)
    (h : ∀ d v, (d, some v) ∈ results → v ≤ cfg.maxTemp) :
    (main_loop cfg st openOk results now r).2 = false := by
  cases openOk with
  | false => rfl
  | true =>
    have hem : (check_temperatures cfg st.counts results).2 = false :=
      foldl_process_no_over_keeps_emergency cfg results (st.counts, false) h
    simp [main_loop, check_temperatures_gated, hem]

/-- Closed instance of the C8 theorem: a cycle of one read failure and one
cool reading, on counters already past the threshold, invokes nothing. -/
theorem no_shutdown_without_over_limit_witness :
    (main_loop DEFAULT_CONFIG ⟨fun _ => 5, none⟩ true
      [("txpaa1", none), ("txpaa2", some 100)] 0 (CmdResult.success "ok")).2 = false :=
  no_shutdown_without_over_limit DEFAULT_CONFIG ⟨fun _ => 5, none⟩ true
    [("txpaa1", none), ("txpaa2", some 100)] 0 (CmdResult.success "ok") (by
      intro d v hm
      rcases List.mem_cons.mp hm with he | hm2
      · simp at he
      · have he2 : (d, some v) = ("txpaa2", some 100) := by simpa using hm2
        injection he2 with h1 h2
        injection h2 with h3
        rw [h3]
        norm_num [DEFAULT_CONFIG])

/-- C10: if opening the results file for appending fails in a cycle, that
cycle leaves every overheat counter unchanged and invokes nothing: the
exception escapes `check_temperatures` before any counter update or emergency
decision, is caught at the monitor-loop boundary, and the loop state is
exactly what it was. -/
theorem open_failure_leaves_state (cfg : MonitorConfig) (st : LoopState)
    (results : List (String × Option ℚ)) (now : ℤ) (r : CmdResult) :
    main_loop cfg st false results now r = (st, false) ∧
    check_temperatures_gated cfg false st.counts results = Except.error () :=
  ⟨rfl, rfl⟩

/-! ## Shutdown guard cooldown -/

lemma invokedTimes_ge :
    ∀ (calls : List (ℤ × CmdResult)) (t0 x : ℤ),
      x ∈ invokedTimes (some t0) calls → t0 + cooldownSeconds ≤ x := by
  intro calls
  induction calls with
  | nil => intro t0 x h; cases h
  | cons c rest ih =>
    intro t0 x h
    obtain ⟨t, r⟩ := c
    have hC : (0 : ℤ) ≤ cooldownSeconds := by norm_num [cooldownSeconds]
    by_cases hlt : t - t0 < cooldownSeconds
    · rw [show invokedTimes (some t0) ((t, r) :: rest) = invokedTimes (some t0) rest from
        by simp [invokedTimes, power_off_system, hlt]] at h
      exact ih t0 x h
    · rw [show invokedTimes (some t0) ((t, r) :: rest) = t :: invokedTimes (some t) rest from
        by simp [invokedTimes, power_off_system, hlt]] at h
      rcases List.mem_cons.mp h with he | hm
      · rw [he]; linarith
      · have := ih t x hm
        linarith

lemma invokedTimes_pairwise :
    ∀ (calls : List (ℤ × CmdResult)) (last : Option ℤ),
      (invokedTimes last calls).Pairwise (fun a b => a + cooldownSeconds ≤ b) := by
  intro calls
  induction calls with
  | nil => intro last; exact List.Pairwise.nil
  | cons c rest ih =>
    intro last
    obtain ⟨t, r⟩ := c
    cases last with
    | none =>
      rw [show invokedTimes none ((t, r) :: rest) = t :: invokedTimes (some t) rest from
        by simp [invokedTimes, power_off_system]]
      exact List.pairwise_cons.mpr ⟨fun y hy => invokedTimes_ge rest t y hy, ih (some t)⟩
    | some t0 =>
      by_cases hlt : t - t0 < cooldownSeconds
      · rw [show invokedTimes (some t0) ((t, r) :: rest) = invokedTimes (some t0) rest from
          by simp [invokedTimes, power_off_system, hlt]]
        exact ih (some t0)
      · rw [show invokedTimes (some t0) ((t, r) :: rest) = t :: invokedTimes (some t) rest from
          by simp [invokedTimes, power_off_system, hlt]]
        exact List.pairwise_cons.mpr ⟨fun y hy => invokedTimes_ge rest t y hy, ih (some t)⟩

lemma pairwise_gap_filter_le_one (C : ℤ) :
    ∀ (l : List ℤ), l.Pairwise (fun a b => a + C ≤ b) →
      ∀ (a w : ℤ), w < C →
      (l.filter fun t => decide (a ≤ t ∧ t ≤ a + w)).length ≤ 1 := by
  intro l
  induction l with
  | nil => intro _ a w _; simp
  | cons x xs ih =>
    intro hp a w hw
    rw [List.pairwise_cons] at hp
    obtain ⟨hx, hxs⟩ := hp
    rw [List.filter_cons]
    by_cases hPx : a ≤ x ∧ x ≤ a + w
    · rw [if_pos (by simpa using hPx)]
      have hnil : (xs.filter fun t => decide (a ≤ t ∧ t ≤ a + w)) = [] := by
        rw [List.filter_eq_nil_iff]
        intro y hy
        simp only [decide_eq_true_eq]
        rintro ⟨hy1, hy2⟩
        have := hx y hy
        linarith [hPx.1, hPx.2]
      rw [hnil]
      simp
    · rw [if_neg (by simpa using hPx)]
      exact ih hxs a w hw

/-- C3: over any sequence of emergency calls to the shutdown guard, at most
one power-off invocation falls inside any time window shorter than the
five-minute cooldown; a call arriving less than five minutes after the
recorded last attempt refuses without invoking; a call that does invoke
records `now` as the new last-attempt timestamp; and the guard's behaviour is
independent of whether the command succeeds, fails or times out, because the
timestamp is recorded before the command runs. -/
theorem power_off_cooldown_window :
    (∀ (calls : List (ℤ × CmdResult)) (a w : ℤ), w < cooldownSeconds →
      ((invokedTimes none calls).filter fun t => decide (a ≤ t ∧ t ≤ a + w)).length ≤ 1) ∧
    (∀ (t0 now : ℤ) (r : CmdResult), now - t0 < cooldownSeconds →
      power_off_system (some t0) now r = (some t0, false)) ∧
    (∀ (last : Option ℤ) (now : ℤ) (r : CmdResult),
      (power_off_system last now r).2 = true → (power_off_system last now r).1 = some now) ∧
    (∀ (last : Option ℤ) (now : ℤ) (r1 r2 : CmdResult),
      power_off_system last now r1 = power_off_system last now r2) := by
  refine ⟨?_, ?_, ?_, ?_⟩
  · intro calls a w hw
    exact pairwise_gap_filter_le_one cooldownSeconds (invokedTimes none calls)
      (invokedTimes_pairwise calls none) a w hw
  · intro t0 now r h
    simp [power_off_system, h]
  · intro last now r h
    cases last with
    | none => rfl
    | some t0 =>
      by_cases hlt : now - t0 < cooldownSeconds
      · rw [show power_off_system (some t0) now r = (some t0, false) from
          by simp [power_off_system, hlt]] at h
        cases h
      · simp [power_off_system, hlt]
  · intro last now r1 r2
    rfl

/-- Closed instance of the C3 theorem: two emergencies 60 s apart invoke at
most once within a 299 s window, a call 60 s after a recorded attempt is
refused, and a first call records its own time. -/
theorem power_off_cooldown_window_witness :
    ((invokedTimes none [((0 : ℤ), CmdResult.timedOut), ((60 : ℤ), CmdResult.success "ok")]).filter
        fun t => decide ((0 : ℤ) ≤ t ∧ t ≤ 0 + 299)).length ≤ 1 ∧
    power_off_system (some (0 : ℤ)) 60 CmdResult.timedOut = (some 0, false) ∧
    (power_off_system none (7 : ℤ) (CmdResult.nonzeroExit 1 "err")).1 = some 7 :=
  ⟨power_off_cooldown_window.1 _ 0 299 (by norm_num [cooldownSeconds]),
   power_off_cooldown_window.2.1 0 60 CmdResult.timedOut (by norm_num [cooldownSeconds]),
   power_off_cooldown_window.2.2.1 none 7 (CmdResult.nonzeroExit 1 "err") rfl⟩

/-! ## Per-device isolation of the fan-in loop -/

/-- C7: whatever order the per-device futures complete in (any permutation of
the configured devices), the fan-in loop hands the evaluator exactly one
outcome per configured device; each device's outcome is determined by its own
fetch alone, and a fetch that escapes with an exception is converted into a
read-failure outcome for that device only. -/
theorem cycle_isolation (devices order : List String)
    (behavior : String → FetchOutcome) (hperm : order.Perm devices) :
    ((collect_results order behavior).map Prod.fst).Perm devices ∧
    (collect_results order behavior).length = devices.length ∧
    (∀ p ∈ collect_results order behavior, p.2 = settle (behavior p.1)) ∧
    (∀ d ∈ devices, (d, settle (behavior d)) ∈ collect_results order behavior) ∧
    (∀ d msg, d ∈ devices → behavior d = FetchOutcome.raises msg →
      (d, (none : Option ℚ)) ∈ collect_results order behavior) := by
  have hmapfst : (collect_results order behavior).map Prod.fst = order := by
    simp [collect_results, List.map_map, Function.comp_def]
  refine ⟨?_, ?_, ?_, ?_, ?_⟩
  · rw [hmapfst]; exact hperm
  · simp [collect_results, hperm.length_eq]
  · intro p hp
    simp only [collect_results, List.mem_map] at hp
    obtain ⟨d, hd, heq⟩ := hp
    rw [← heq]
  · intro d hd
    exact List.mem_map_of_mem _ (hperm.mem_iff.mpr hd)
  · intro d msg hd hb
    have h2 : (d, settle (behavior d)) ∈ collect_results order behavior :=
      List.mem_map_of_mem (fun d => (d, settle (behavior d))) (hperm.mem_iff.mpr hd)
    rw [hb] at h2
    exact h2

/-- One device raising, the others answering: the concrete behavior used by
the C7 witness. -/
def demoBehavior : String → FetchOutcome :=
  fun d => if d = "txpaa2" then FetchOutcome.raises "boom" else FetchOutcome.returns (some 100)

/-- Closed instance of the C7 theorem: the raising device still contributes
exactly its read-failure pair to the batch, in a shuffled completion order. -/
theorem cycle_isolation_witness :
    ("txpaa2", (none : Option ℚ)) ∈
      collect_results ["txpaa3", "txpaa1", "txpaa2"] demoBehavior :=
  (cycle_isolation DEFAULT_CONFIG.devices ["txpaa3", "txpaa1", "txpaa2"] demoBehavior
      (by decide)).2.2.2.2 "txpaa2" "boom" (by decide) (by decide)

end TempMonitor
